import Mathlib

/-!
Shallow embedding of the MAPIE group-conditional split-conformal engine:
`src/mapie/futur/split/regression.py` (`SplitCPRegressor`),
`src/mapie/futur/split/classification.py` (`SplitMapieClassifier`), and the
Mondrian partitioning layer exercised by `src/mapie/tests/test_mondrian.py`.
Numeric arrays are embedded as lists of rationals; the underlying sklearn
predictor, the calibrator and the conformity-score transform are external
capabilities, embedded as explicit function parameters.
-/

/-- Embedding of `np.argmax` on one row: the index of the first maximal
element of the list (`0` on the empty list, as a total function). -/
def argmax : List ℚ → ℕ
  | [] => 0
  | a :: rest =>
    let j := argmax rest
    if a < rest.getD j a then j + 1 else 0

/-- A conformity-score object, as the Mondrian/split engine sees it: the
`sym` flag it declares plus a tag distinguishing the concrete variant. -/
structure ConformityScore where
  sym : Bool
  tag : String
deriving DecidableEq

/-- Modelled from the spec: the `LAC` classification conformity score (class
`mapie.conformity_scores.classification_scores.LAC`, whose definition is not
under `src/`); the spec states it is "symmetric by construction". -/
def LAC : ConformityScore :=
  ⟨true, "LAC"⟩

/-- The possible values of the `conformity_score` argument as the dynamic
code sees them: `None`, an actual `ConformityScore` instance, or any other
Python object (not a `ConformityScore` instance). -/
inductive CSArg where
  | none
  | score (s : ConformityScore)
  | notAScore
deriving DecidableEq

/-- `SplitMapieClassifier._check_calib_conformity_score`: rejects a
non-symmetric configuration, substitutes `LAC()` for `None`, passes a real
`ConformityScore` through, and rejects anything else. -/
def SplitMapieClassifier.check_calib_conformity_score
    (conformity_score : CSArg) (sym : Bool) : Except String ConformityScore :=
  if ¬ sym then
    .error "sym argument should be set to True in classification"
  else
    match conformity_score with
    | .none => .ok LAC
    | .score s => .ok s
    | .notAScore =>
        .error "Invalid conformity_score argument. Must be None or a ConformityScore instance."

/-- `SplitMapieClassifier.predict_score`: the raw prediction is
`self.predictor_.predict_proba(X)`, one probability row per sample. -/
def SplitMapieClassifier.predict_score {X : Type}
    (predict_proba : X → List ℚ) (Xs : List X) : List (List ℚ) :=
  Xs.map predict_proba

/-- `SplitMapieClassifier.predict_best`: `np.argmax(y_pred, axis=1)`. -/
def SplitMapieClassifier.predict_best (y_pred : List (List ℚ)) : List ℕ :=
  y_pred.map argmax

/-- `SplitMapieClassifier.predict_bounds`: the calibrator's column-1 output
is fed, with the probability row, to the conformity score's
`get_estimation_distribution`, yielding the per-class membership row. -/
def SplitMapieClassifier.predict_bounds {X : Type}
    (calibPredict : X → ℚ × ℚ) (getDist : X → List ℚ → ℚ → List Bool)
    (Xs : List X) (y_pred : List (List ℚ)) : List (List Bool) :=
  (Xs.zip y_pred).map (fun xy => getDist xy.1 xy.2 (calibPredict xy.1).2)

/-- Modelled from the spec: the calibrated classification `predict` entry
point (the shared `SplitCP.predict` driver lives in
`mapie/futur/split/base.py`, which is not under `src/`) — "runs the model,
then the calibrator": the point prediction comes from `predict_best` applied
to `predict_score`, the set layer from `predict_bounds` on the same scores. -/
def SplitMapieClassifier.predict {X : Type}
    (predict_proba : X → List ℚ) (calibPredict : X → ℚ × ℚ)
    (getDist : X → List ℚ → ℚ → List Bool) (Xs : List X) :
    List ℕ × List (List Bool) :=
  (SplitMapieClassifier.predict_best
      (SplitMapieClassifier.predict_score predict_proba Xs),
   SplitMapieClassifier.predict_bounds calibPredict getDist Xs
      (SplitMapieClassifier.predict_score predict_proba Xs))

/-- `SplitCPRegressor.predict_score`: returns `self.predictor_.predict(X)`. -/
def SplitCPRegressor.predict_score {X : Type}
    (predict : X → ℚ) (Xs : List X) : List ℚ :=
  Xs.map predict

/-- `SplitCPRegressor.predict_best`: the identity on the raw predictions. -/
def SplitCPRegressor.predict_best (y_pred : List ℚ) : List ℚ :=
  y_pred

/-- Modelled from the spec: `mapie.utils.check_lower_upper_bounds` (not under
`src/`) — "the engine asserts lower ≤ upper per row and raises if violated".
The third argument mirrors the `y_pred` argument of the source call; the
spec specifies only the per-row lower ≤ upper assertion. -/
def check_lower_upper_bounds (y_pred_low y_pred_up y_pred : List ℚ) :
    Except String Unit :=
  if (y_pred_low.zip y_pred_up).all (fun p => decide (p.1 ≤ p.2)) then .ok ()
  else .error "The lower bound is not lower than the upper bound"

/-- The lower-bound column built by `SplitCPRegressor.predict_bounds`:
per row, the calibrator's column-0 score converted back to prediction space
by `conformity_score_.get_estimation_distribution`. -/
def SplitCPRegressor.lowerColumn {X : Type}
    (calibPredict : X → ℚ → ℚ × ℚ) (getDist : X → ℚ → ℚ → ℚ)
    (Xs : List X) (y_pred : List ℚ) : List ℚ :=
  (Xs.zip y_pred).map (fun xy => getDist xy.1 xy.2 (calibPredict xy.1 xy.2).1)

/-- The upper-bound column built by `SplitCPRegressor.predict_bounds`:
same as the lower column but from the calibrator's column-1 score. -/
def SplitCPRegressor.upperColumn {X : Type}
    (calibPredict : X → ℚ → ℚ × ℚ) (getDist : X → ℚ → ℚ → ℚ)
    (Xs : List X) (y_pred : List ℚ) : List ℚ :=
  (Xs.zip y_pred).map (fun xy => getDist xy.1 xy.2 (calibPredict xy.1 xy.2).2)

/-- `SplitCPRegressor.predict_bounds`: builds the two bound columns, runs
`check_lower_upper_bounds` (raising on a violated row), then stacks the pair
per row. -/
def SplitCPRegressor.predict_bounds {X : Type}
    (calibPredict : X → ℚ → ℚ × ℚ) (getDist : X → ℚ → ℚ → ℚ)
    (Xs : List X) (y_pred : List ℚ) : Except String (List (ℚ × ℚ)) :=
  match check_lower_upper_bounds
      (SplitCPRegressor.lowerColumn calibPredict getDist Xs y_pred)
      (SplitCPRegressor.upperColumn calibPredict getDist Xs y_pred) y_pred with
  | .error e => .error e
  | .ok _ => .ok ((SplitCPRegressor.lowerColumn calibPredict getDist Xs y_pred).zip
      (SplitCPRegressor.upperColumn calibPredict getDist Xs y_pred))

/-- Modelled from the spec: the calibrated regression `predict` entry point
(the shared `SplitCP.predict` driver is not under `src/`) — point prediction
from `predict_best` on `predict_score`, interval layer from
`predict_bounds`; a bound-consistency failure aborts the whole call. -/
def SplitCPRegressor.predict {X : Type}
    (predict : X → ℚ) (calibPredict : X → ℚ → ℚ × ℚ)
    (getDist : X → ℚ → ℚ → ℚ) (Xs : List X) :
    Except String (List ℚ × List (ℚ × ℚ)) :=
  match SplitCPRegressor.predict_bounds calibPredict getDist Xs
      (SplitCPRegressor.predict_score predict Xs) with
  | .error e => .error e
  | .ok bs =>
      .ok (SplitCPRegressor.predict_best
        (SplitCPRegressor.predict_score predict Xs), bs)

/-- The possible values of the `cv` configuration argument: `None`, the
strings `"prefit"` and `"split"`, a splitter object carrying its `n_splits`
count, an integer, or any other string. -/
inductive CvArg where
  | noneArg
  | prefit
  | split
  | splitter (n_splits : Int)
  | intArg (n : Int)
  | otherStr (s : String)
deriving DecidableEq

/-- The validated cross-validation modes. -/
inductive CvMode where
  | prefit
  | split
  | singleSplit
deriving DecidableEq

/-- Modelled from the spec: the cross-validation-mode check
(`SplitCP._check_cv` in `mapie/futur/split/base.py`, not under `src/`) —
"one of `prefit` | `split` | `None` (default, behaves as `split`) | a
single-split partition strategy; any other value (multi-split strategies,
negative/invalid split counts) is rejected with a validation error before
any computation". -/
def check_cv : CvArg → Except String CvMode
  | .noneArg => .ok .split
  | .prefit => .ok .prefit
  | .split => .ok .split
  | .splitter n =>
      if n = 1 then .ok .singleSplit
      else .error "Invalid cv argument: splitter must have n_splits equal to 1."
  | .intArg _ => .error "Invalid cv argument: integer split counts are not supported."
  | .otherStr _ => .error "Invalid cv argument."

/-- The capability surface of a (possibly fitted) sklearn estimator, as the
validation code observes it through `hasattr` and `check_is_fitted`. -/
structure SkEstimator where
  hasFit : Bool
  hasPredict : Bool
  hasPredictProba : Bool
  isFitted : Bool
  hasClasses : Bool
deriving DecidableEq

/-- Default model substituted when `estimator is None`: sklearn
`LogisticRegression(multi_class="multinomial")`, an unfitted classifier
exposing fit/predict/predict_proba (external capability, embedded by its
observable flags). -/
def LogisticRegression : SkEstimator :=
  ⟨true, true, true, false, false⟩

/-- The possible values of the `estimator` argument: `None`, a bare
estimator, or a sklearn `Pipeline` (earlier steps plus the final step
`estimator[-1]`). -/
inductive EstimatorArg where
  | noneArg
  | est (e : SkEstimator)
  | pipeline (steps : List SkEstimator) (last : SkEstimator)
deriving DecidableEq

/-- The exception kinds raised by estimator validation: `ValueError`,
sklearn `NotFittedError`, and `AttributeError`. -/
inductive CheckError where
  | valueError (msg : String)
  | notFittedError
  | attributeError (msg : String)
deriving DecidableEq

/-- `SplitMapieClassifier._check_estimator_fit_predict_predict_proba`:
`ValueError` unless the estimator has `fit`, `predict` and
`predict_proba`. -/
def SplitMapieClassifier.check_estimator_fit_predict_predict_proba
    (estimator : SkEstimator) : Except CheckError Unit :=
  if estimator.hasFit && estimator.hasPredict && estimator.hasPredictProba then
    .ok ()
  else
    .error (.valueError "Invalid estimator. Please provide a classifier with fit, predict, and predict_proba methods.")

/-- `SplitMapieClassifier._check_estimator_classification`: substitutes the
default `LogisticRegression` for `None`, takes the last step of a
`Pipeline`, checks the fit/predict/predict_proba capability on that step,
and under `cv == "prefit"` additionally requires the step to be fitted
(sklearn `check_is_fitted`, embedded by the `isFitted` flag, raising
`NotFittedError`) and to expose `classes_` (else `AttributeError`). -/
def SplitMapieClassifier.check_estimator_classification
    (estimator : EstimatorArg) (cv : String) : Except CheckError SkEstimator :=
  let est := match estimator with
    | .noneArg => LogisticRegression
    | .est e => e
    | .pipeline _ last => last
  match SplitMapieClassifier.check_estimator_fit_predict_predict_proba est with
  | .error k => .error k
  | .ok _ =>
    if cv = "prefit" then
      if ¬ est.isFitted then .error .notFittedError
      else if ¬ est.hasClasses then
        .error (.attributeError "Invalid classifier. Fitted classifier does not contain classes_ attribute.")
      else .ok est
    else .ok est

/-- A group label as supplied by the caller: an integer id or a string
label (the rejected kind). -/
inductive GroupLabel where
  | intL (g : Int)
  | strL (s : String)
deriving DecidableEq

/-- Checks that every group label is an integer, returning the integer ids
or `none` when some label is a string. -/
def toIntLabels : List GroupLabel → Option (List Int)
  | [] => some []
  | .intL g :: rest => (toIntLabels rest).map (fun gs => g :: gs)
  | .strL _ :: _ => none

/-- The rows of a dataset belonging to group `g` (numpy boolean-mask
indexing `rows[groups == g]`), in their original relative order. -/
def groupRows {R : Type} (gs : List Int) (rows : List R) (g : Int) : List R :=
  (((gs.zip rows).filter (fun p => p.1 == g)).map Prod.snd)

/-- The fit-time state of the Mondrian layer: the group registry (group id →
fitted per-group estimator state) and the frozen list of fit-time ids. -/
structure MondrianFitted (S : Type) where
  registry : List (Int × S)
  fitGroups : List Int

/-- Modelled from the spec: `MondrianCP.fit` (`mapie/mondrian.py`, not under
`src/`) — validates `len(groups) == len(X)`, that every group id is an
integer, and that each distinct group has at least 2 members; then, for each
distinct group id, runs the wrapped estimator's full fit sequence (the
abstract capability `efit`) on that group's rows only, and stores the group
registry together with the frozen id set. Error messages follow
`src/mapie/tests/test_mondrian.py`. -/
def mondrianFit {X Y S : Type} (efit : List (X × Y) → S)
    (Xs : List X) (ys : List Y) (groups : List GroupLabel) :
    Except String (MondrianFitted S) :=
  if groups.length ≠ Xs.length then
    .error "The number of individuals in the groups and X must be the same"
  else
    match toIntLabels groups with
    | none => .error "The groups must be defined by integers"
    | some gs =>
        if gs.dedup.all (fun g => decide (2 ≤ gs.count g)) then
          .ok ⟨gs.dedup.map (fun g => (g, efit (groupRows gs (Xs.zip ys) g))),
               gs.dedup⟩
        else .error "There must be at least 2 individuals in each group"

/-- Turns a list of optional per-row outputs into an optional list: `some`
of all values when every row produced one, `none` otherwise. -/
def seqOpt {α : Type} : List (Option α) → Option (List α)
  | [] => some []
  | none :: _ => none
  | some a :: rest => (seqOpt rest).map (fun l => a :: l)

/-- Modelled from the spec: `MondrianCP.predict` / `predict_proba`
(`mapie/mondrian.py`, not under `src/`) — validates `len(groups) == len(X)`
and that every id in `groups` is a member of the frozen fit-time id set
(any unseen id raises before any computation); then routes each row to its
group's fitted instance (the abstract capability `epred`, also given the
requested `alpha`) and reassembles the outputs in the caller's original row
order. -/
def mondrianPredict {X S Out A : Type} (epred : S → A → X → Out)
    (m : MondrianFitted S) (Xs : List X) (groups : List Int) (a : A) :
    Except String (List Out) :=
  if groups.length ≠ Xs.length then
    .error "The number of individuals in the groups and X must be the same"
  else if groups.all (fun g => decide (g ∈ m.fitGroups)) then
    match seqOpt ((groups.zip Xs).map
        (fun p => (m.registry.lookup p.1).map (fun s => epred s a p.2))) with
    | some outs => .ok outs
    | none => .error "Internal error: group missing from the registry"
  else .error "There is at least one new group"

/-- Modelled from the spec: the ungrouped SplitConformalPredictor's
fit-then-predict on a whole dataset, through the same abstract wrapped
estimator capability: `efit` trains and calibrates on all rows, `epred`
predicts every row at the requested `alpha`. -/
def classicFitPredict {X Y S Out A : Type} (efit : List (X × Y) → S)
    (epred : S → A → X → Out) (Xs : List X) (ys : List Y) (a : A) :
    List Out :=
  Xs.map (epred (efit (Xs.zip ys)) a)

/-- C5: for the classification variant, a configuration declaring the
conformity score non-symmetric is rejected during calibration-parameter
checking; with no conformity score supplied the symmetric `LAC` score is
used; a supplied non-`ConformityScore` value also raises; a genuine
`ConformityScore` instance is passed through. -/
theorem check_calib_conformity_score_spec :
    (∀ arg, ∃ msg,
      SplitMapieClassifier.check_calib_conformity_score arg false
        = .error msg)
    ∧ SplitMapieClassifier.check_calib_conformity_score CSArg.none true
        = .ok LAC
    ∧ LAC.sym = true
    ∧ (∀ s, SplitMapieClassifier.check_calib_conformity_score
        (CSArg.score s) true = .ok s)
    ∧ (∃ msg, SplitMapieClassifier.check_calib_conformity_score
        CSArg.notAScore true = .error msg) := by
  refine ⟨fun arg => ⟨_, rfl⟩, rfl, rfl, fun s => rfl, ⟨_, rfl⟩⟩

/-- C6: in a calibrated classification predict call, the returned label per
row is the argmax of the model's predicted class probabilities, and it does
not depend on the calibrator or on the conformal-set membership machinery. -/
theorem cls_predict_label_is_argmax :
    ∀ {X : Type} (predict_proba : X → List ℚ)
      (calib calib2 : X → ℚ × ℚ)
      (memb memb2 : X → List ℚ → ℚ → List Bool) (Xs : List X),
    (SplitMapieClassifier.predict predict_proba calib memb Xs).1
        = Xs.map (fun x => argmax (predict_proba x))
    ∧ (SplitMapieClassifier.predict predict_proba calib memb Xs).1
        = (SplitMapieClassifier.predict predict_proba calib2 memb2 Xs).1 := by
  intro X p c c2 d d2 Xs
  refine ⟨?_, rfl⟩
  simp [SplitMapieClassifier.predict, SplitMapieClassifier.predict_best,
    SplitMapieClassifier.predict_score]

/-- C9: the regression point prediction is the identity on the underlying
model's raw prediction: `predict_best` on `predict_score` is exactly
`predictor.predict(X)` per row, and whenever the calibrated predict call
succeeds, its point-prediction component equals that array, regardless of
the calibrator or conformity score. -/
theorem reg_point_prediction_identity :
    ∀ {X : Type} (predict : X → ℚ) (calib : X → ℚ → ℚ × ℚ)
      (invertScore : X → ℚ → ℚ → ℚ) (Xs : List X),
    SplitCPRegressor.predict_best (SplitCPRegressor.predict_score predict Xs)
        = Xs.map predict
    ∧ ∀ out, SplitCPRegressor.predict predict calib invertScore Xs = .ok out →
        out.1 = Xs.map predict := by
  intro X p c d Xs
  refine ⟨rfl, ?_⟩
  intro out h
  unfold SplitCPRegressor.predict at h
  cases hb : SplitCPRegressor.predict_bounds c d Xs
      (SplitCPRegressor.predict_score p Xs) with
  | error e => rw [hb] at h; exact absurd h (by simp)
  | ok bs => rw [hb] at h; cases h; rfl

/-- Witness for C9 at a concrete input: the identity predictor on two rows,
a constant calibrator and additive score inversion. -/
theorem reg_point_prediction_identity_witness :
    (([(0 : ℚ), 1], [((-1 : ℚ), (1 : ℚ)), (0, 2)]).1 : List ℚ)
      = [(0 : ℚ), 1] :=
  (reg_point_prediction_identity (fun q => q) (fun _ _ => ((-1 : ℚ), 1))
    (fun _ y s => y + s) [(0 : ℚ), 1]).2
    ([(0 : ℚ), 1], [((-1 : ℚ), (1 : ℚ)), (0, 2)]) (by
      simp [SplitCPRegressor.predict, SplitCPRegressor.predict_bounds,
        SplitCPRegressor.predict_score, SplitCPRegressor.predict_best,
        SplitCPRegressor.lowerColumn, SplitCPRegressor.upperColumn,
        check_lower_upper_bounds]
      norm_num)

/-- C4: the cross-validation mode accepts exactly `"prefit"`, `"split"`,
`None` (behaving as `"split"`), or a single-split partition strategy; any
other value is rejected with a validation error. -/
theorem check_cv_spec :
    ∀ c, ((∃ m, check_cv c = .ok m) ↔
          (c = CvArg.noneArg ∨ c = CvArg.prefit ∨ c = CvArg.split
            ∨ c = CvArg.splitter 1))
        ∧ check_cv CvArg.noneArg = .ok CvMode.split := by
  intro c
  refine ⟨?_, rfl⟩
  cases c with
  | noneArg => simp [check_cv]
  | prefit => simp [check_cv]
  | split => simp [check_cv]
  | splitter n =>
    by_cases hn : n = 1
    · subst hn; simp [check_cv]
    · simp [check_cv, hn]
  | intArg n => simp [check_cv]
  | otherStr s => simp [check_cv]

/-- Witness for C4 at a concrete input: a single-split strategy is
accepted. -/
theorem check_cv_spec_witness :
    ∃ m, check_cv (CvArg.splitter 1) = .ok m :=
  ((check_cv_spec (CvArg.splitter 1)).1).mpr (by simp)

/-- C10: under `cv="prefit"`, classification estimator validation requires
the (Pipeline-final-step) classifier to be fitted (`NotFittedError`
otherwise) and to expose `classes_` (`AttributeError` otherwise), and the
capability check applies to the last step of a supplied Pipeline. -/
theorem check_estimator_classification_prefit_spec :
    ∀ (e : SkEstimator) (steps : List SkEstimator) (cv : String),
    ((e.hasFit && e.hasPredict && e.hasPredictProba) = true →
      (e.isFitted = false →
        SplitMapieClassifier.check_estimator_classification
          (.est e) "prefit" = .error .notFittedError)
      ∧ (e.isFitted = true → e.hasClasses = false →
        ∃ msg, SplitMapieClassifier.check_estimator_classification
          (.est e) "prefit" = .error (.attributeError msg)))
    ∧ SplitMapieClassifier.check_estimator_classification
        (.pipeline steps e) cv
      = SplitMapieClassifier.check_estimator_classification (.est e) cv := by
  intro e steps cv
  refine ⟨?_, rfl⟩
  intro hcap
  constructor
  · intro hfit
    simp [SplitMapieClassifier.check_estimator_classification,
      SplitMapieClassifier.check_estimator_fit_predict_predict_proba,
      hcap, hfit]
  · intro hfit hcls
    refine ⟨"Invalid classifier. Fitted classifier does not contain classes_ attribute.", ?_⟩
    simp [SplitMapieClassifier.check_estimator_classification,
      SplitMapieClassifier.check_estimator_fit_predict_predict_proba,
      hcap, hfit, hcls]

/-- Witness for C10 at concrete inputs: the unfitted default classifier
raises `NotFittedError` under prefit, a fitted classifier without `classes_`
raises `AttributeError`, and a Pipeline is validated by its last step. -/
theorem check_estimator_classification_prefit_witness :
    SplitMapieClassifier.check_estimator_classification
        (.est LogisticRegression) "prefit" = .error .notFittedError
    ∧ (∃ msg, SplitMapieClassifier.check_estimator_classification
        (.est ⟨true, true, true, true, false⟩) "prefit"
          = .error (.attributeError msg))
    ∧ SplitMapieClassifier.check_estimator_classification
        (.pipeline [LogisticRegression] ⟨true, true, true, true, true⟩)
        "prefit"
      = SplitMapieClassifier.check_estimator_classification
        (.est ⟨true, true, true, true, true⟩) "prefit" :=
  ⟨((check_estimator_classification_prefit_spec LogisticRegression []
      "prefit").1 rfl).1 rfl,
   ((check_estimator_classification_prefit_spec ⟨true, true, true, true, false⟩
      [] "prefit").1 rfl).2 rfl rfl,
   (check_estimator_classification_prefit_spec ⟨true, true, true, true, true⟩
      [LogisticRegression] "prefit").2⟩

/-- C3: in regression predict, after the two bound columns are converted
back to prediction space, every row is checked for lower ≤ upper: a
violating row makes `predict_bounds` raise the consistency error, and a
successful call returns exactly the computed (lower, upper) pair per row
(never swapped), all rows satisfying lower ≤ upper. -/
theorem reg_predict_bounds_consistency :
    ∀ {X : Type} (calib : X → ℚ → ℚ × ℚ) (invertScore : X → ℚ → ℚ → ℚ)
      (Xs : List X) (y_pred : List ℚ),
    ((∃ p ∈ (SplitCPRegressor.lowerColumn calib invertScore Xs y_pred).zip
          (SplitCPRegressor.upperColumn calib invertScore Xs y_pred),
        p.2 < p.1) →
      SplitCPRegressor.predict_bounds calib invertScore Xs y_pred
        = .error "The lower bound is not lower than the upper bound")
    ∧ (∀ bs,
        SplitCPRegressor.predict_bounds calib invertScore Xs y_pred = .ok bs →
        bs = (SplitCPRegressor.lowerColumn calib invertScore Xs y_pred).zip
             (SplitCPRegressor.upperColumn calib invertScore Xs y_pred)
        ∧ bs.length = min Xs.length y_pred.length
        ∧ ∀ b ∈ bs, b.1 ≤ b.2) := by
  intro X c d Xs y_pred
  constructor
  · rintro ⟨p, hp, hlt⟩
    have hall : ((SplitCPRegressor.lowerColumn c d Xs y_pred).zip
        (SplitCPRegressor.upperColumn c d Xs y_pred)).all
        (fun q => decide (q.1 ≤ q.2)) = false := by
      rw [List.all_eq_false]
      exact ⟨p, hp, by simpa using hlt⟩
    unfold SplitCPRegressor.predict_bounds check_lower_upper_bounds
    simp [hall]
  · intro bs h
    unfold SplitCPRegressor.predict_bounds check_lower_upper_bounds at h
    by_cases hall : ((SplitCPRegressor.lowerColumn c d Xs y_pred).zip
        (SplitCPRegressor.upperColumn c d Xs y_pred)).all
        (fun q => decide (q.1 ≤ q.2)) = true
    · rw [if_pos hall] at h
      simp only [Except.ok.injEq] at h
      subst h
      refine ⟨rfl, ?_, ?_⟩
      · simp [List.length_zip, SplitCPRegressor.lowerColumn,
          SplitCPRegressor.upperColumn, List.length_map]
      · intro b hb
        have := (List.all_eq_true.mp hall) b hb
        simpa using this
    · rw [if_neg hall] at h
      simp at h

/-- Witness for C3 at a concrete input: a calibrator that swaps the two
score columns produces an inverted row and the consistency error is
raised. -/
theorem reg_predict_bounds_consistency_witness :
    SplitCPRegressor.predict_bounds (fun (_ : Unit) _ => ((1 : ℚ), -1))
        (fun _ y s => y + s) [()] [0]
      = .error "The lower bound is not lower than the upper bound" :=
  (reg_predict_bounds_consistency (fun (_ : Unit) _ => ((1 : ℚ), -1))
    (fun _ y s => y + s) [()] [0]).1
    ⟨((1 : ℚ), (-1 : ℚ)),
     by simp [SplitCPRegressor.lowerColumn, SplitCPRegressor.upperColumn],
     by norm_num⟩

/-- C2: a Mondrian predict call whose groups contain an id absent from the
frozen fit-time id set returns an error and no output array (for any wrapped
estimator `epred`, dataset and alpha). -/
theorem mondrian_predict_unseen_group :
    ∀ {X S Out A : Type} (epred : S → A → X → Out) (m : MondrianFitted S)
      (Xs : List X) (groups : List Int) (a : A),
    (∃ g ∈ groups, g ∉ m.fitGroups) →
    ∃ msg, mondrianPredict epred m Xs groups a = .error msg := by
  intro X S Out A ep m Xs gs a hex
  obtain ⟨g, hg, hnot⟩ := hex
  unfold mondrianPredict
  by_cases hlen : gs.length ≠ Xs.length
  · exact ⟨_, by rw [if_pos hlen]⟩
  · have hall : gs.all (fun g => decide (g ∈ m.fitGroups)) = false := by
      rw [List.all_eq_false]
      exact ⟨g, hg, by simpa using hnot⟩
    refine ⟨"There is at least one new group", ?_⟩
    rw [if_neg hlen, if_neg (by simp [hall])]

/-- Witness for C2 at a concrete input: a registry fitted on group 0 only,
queried with group 99. -/
theorem mondrian_predict_unseen_group_witness :
    ∃ msg, mondrianPredict (fun (s : ℕ) (a : ℕ) (x : ℕ) => s + a + x)
        ⟨[(0, 0)], [0]⟩ [5] [99] 0 = .error msg :=
  mondrian_predict_unseen_group (fun (s : ℕ) (a : ℕ) (x : ℕ) => s + a + x)
    ⟨[(0, 0)], [0]⟩ [5] [99] 0 ⟨99, by simp, by decide⟩

/-- A string label anywhere in the groups makes the integer check fail. -/
theorem toIntLabels_eq_none_of_strL :
    ∀ (groups : List GroupLabel) (s : String),
    GroupLabel.strL s ∈ groups → toIntLabels groups = none := by
  intro groups s h
  induction groups with
  | nil => cases h
  | cons a rest ih =>
    cases a with
    | intL g =>
      have : GroupLabel.strL s ∈ rest := by
        cases h with
        | tail _ h' => exact h'
      simp [toIntLabels, ih this]
    | strL t => rfl

/-- C7: a Mondrian fit call whose groups contain a non-integer (string)
label raises a validation error (for any wrapped estimator `efit`, so no
per-group fitting can have occurred). -/
theorem mondrian_fit_nonint_group :
    ∀ {X Y S : Type} (efit : List (X × Y) → S) (Xs : List X) (ys : List Y)
      (groups : List GroupLabel) (s : String),
    GroupLabel.strL s ∈ groups →
    ∃ msg, mondrianFit efit Xs ys groups = .error msg := by
  intro X Y S ef Xs ys groups s hmem
  unfold mondrianFit
  by_cases hlen : groups.length ≠ Xs.length
  · exact ⟨_, by rw [if_pos hlen]⟩
  · refine ⟨"The groups must be defined by integers", ?_⟩
    rw [if_neg hlen, toIntLabels_eq_none_of_strL groups s hmem]

/-- Witness for C7 at a concrete input: a two-row dataset with one string
group label. -/
theorem mondrian_fit_nonint_group_witness :
    ∃ msg, mondrianFit (fun (rows : List (ℤ × ℤ)) => rows.length)
        [(10 : ℤ), 20] [(1 : ℤ), 2]
        [GroupLabel.intL 1, GroupLabel.strL "a"] = .error msg :=
  mondrian_fit_nonint_group (fun (rows : List (ℤ × ℤ)) => rows.length)
    [(10 : ℤ), 20] [(1 : ℤ), 2] [GroupLabel.intL 1, GroupLabel.strL "a"] "a"
    (by simp)

/-- Integer labels pass the integer check unchanged. -/
theorem toIntLabels_map_intL :
    ∀ gs : List Int, toIntLabels (gs.map GroupLabel.intL) = some gs := by
  intro gs
  induction gs with
  | nil => rfl
  | cons g rest ih => simp [toIntLabels, ih]

/-- C8: a Mondrian fit call in which some distinct group id has fewer than 2
member rows raises a validation error (for any wrapped estimator `efit`, so
the undersized group is never split, fitted or calibrated). -/
theorem mondrian_fit_small_group :
    ∀ {X Y S : Type} (efit : List (X × Y) → S) (Xs : List X) (ys : List Y)
      (gs : List Int) (g : Int),
    g ∈ gs → gs.count g < 2 →
    ∃ msg, mondrianFit efit Xs ys (gs.map GroupLabel.intL) = .error msg := by
  intro X Y S ef Xs ys gs g hmem hlt
  unfold mondrianFit
  by_cases hlen : (gs.map GroupLabel.intL).length ≠ Xs.length
  · exact ⟨_, by rw [if_pos hlen]⟩
  · have hall : gs.dedup.all (fun g => decide (2 ≤ gs.count g)) = false := by
      rw [List.all_eq_false]
      refine ⟨g, List.mem_dedup.mpr hmem, ?_⟩
      simpa using hlt
    refine ⟨"There must be at least 2 individuals in each group", ?_⟩
    rw [if_neg hlen, toIntLabels_map_intL]
    exact if_neg (by simp [hall])

/-- Witness for C8 at a concrete input: a three-row dataset in which group 1
has a single member. -/
theorem mondrian_fit_small_group_witness :
    ∃ msg, mondrianFit (fun (rows : List (ℤ × ℤ)) => rows.length)
        [(10 : ℤ), 20, 30] [(1 : ℤ), 2, 3]
        ([1, 2, 2].map GroupLabel.intL) = .error msg :=
  mondrian_fit_small_group (fun (rows : List (ℤ × ℤ)) => rows.length)
    [(10 : ℤ), 20, 30] [(1 : ℤ), 2, 3] [1, 2, 2] 1 (by decide) (by decide)

/-- Replicated integer labels pass the integer check as the replicated id
list. -/
theorem toIntLabels_replicate (n : ℕ) (g : Int) :
    toIntLabels (List.replicate n (GroupLabel.intL g))
      = some (List.replicate n g) := by
  induction n with
  | zero => rfl
  | succ k ih => simp [List.replicate_succ, toIntLabels, ih]

/-- A nonempty replicated list deduplicates to the singleton. -/
theorem dedup_replicate_of_ne_zero {n : ℕ} (hn : n ≠ 0) (g : Int) :
    (List.replicate n g).dedup = [g] := by
  induction n with
  | zero => exact absurd rfl hn
  | succ k ih =>
    rcases Nat.eq_zero_or_pos k with h0 | hpos
    · subst h0
      rw [List.replicate_succ, List.replicate_zero,
        List.dedup_cons_of_not_mem (List.not_mem_nil g), List.dedup_nil]
    · have hk : k ≠ 0 := Nat.pos_iff_ne_zero.mp hpos
      rw [List.replicate_succ,
        List.dedup_cons_of_mem (by simp [List.mem_replicate, hk]), ih hk]

/-- Zipping a same-length replicated constant against a list pairs every
element with the constant. -/
theorem replicate_zip {α β : Type} (b : β) (l : List α) :
    (List.replicate l.length b).zip l = l.map (fun x => (b, x)) := by
  induction l with
  | nil => rfl
  | cons a t ih =>
    simp only [List.length_cons, List.replicate_succ, List.zip_cons_cons,
      List.map_cons]
    rw [ih]

/-- Boolean-mask row selection with a single-group mask returns every row. -/
theorem groupRows_replicate {R : Type} (g : Int) (rows : List R) :
    groupRows (List.replicate rows.length g) rows g = rows := by
  unfold groupRows
  rw [replicate_zip]
  induction rows with
  | nil => rfl
  | cons r t ih => simp [List.filter_cons, ih]

/-- Sequencing a list of `some` values yields the list of values. -/
theorem seqOpt_map_some {α β : Type} (f : α → β) (l : List α) :
    seqOpt (l.map (fun x => some (f x))) = some (l.map f) := by
  induction l with
  | nil => rfl
  | cons a t ih => simp [seqOpt, ih]

/-- C1: with exactly one distinct group id, Mondrian fit-then-predict equals
the ungrouped estimator fit and predicted on the same data with the same
alpha, for every wrapped estimator capability (`efit`, `epred`) and every
alpha — an exact equality, hence within any floating-point tolerance. -/
theorem mondrian_single_group_equiv :
    ∀ {X Y S Out A : Type} (efit : List (X × Y) → S)
      (epred : S → A → X → Out) (Xs : List X) (ys : List Y) (g : Int)
      (a : A),
    2 ≤ Xs.length → ys.length = Xs.length →
    ∃ m, mondrianFit efit Xs ys
          (List.replicate Xs.length (GroupLabel.intL g)) = .ok m
      ∧ mondrianPredict epred m Xs (List.replicate Xs.length g) a
          = .ok (classicFitPredict efit epred Xs ys a) := by
  intro X Y S Out A ef ep Xs ys g a hn hy
  have hzlen : (Xs.zip ys).length = Xs.length := by
    rw [List.length_zip, hy, min_self]
  have hne : Xs.length ≠ 0 := by omega
  refine ⟨⟨[(g, ef (Xs.zip ys))], [g]⟩, ?_, ?_⟩
  · unfold mondrianFit
    rw [if_neg (show ¬ ((List.replicate Xs.length
        (GroupLabel.intL g)).length ≠ Xs.length) by simp)]
    simp only [toIntLabels_replicate, dedup_replicate_of_ne_zero hne,
      List.count_replicate_self, List.all_cons, List.all_nil,
      Bool.and_true, List.map_cons, List.map_nil]
    rw [if_pos (by simpa using hn)]
    rw [← hzlen, groupRows_replicate]
  · unfold mondrianPredict
    dsimp only
    rw [if_neg (show ¬ ((List.replicate Xs.length g).length ≠ Xs.length)
      by simp)]
    have hall : ((List.replicate Xs.length g).all
        (fun x => decide (x ∈ ([g] : List Int)))) = true := by
      rw [List.all_eq_true]
      intro x hx
      rw [List.mem_replicate] at hx
      simp [hx.2]
    rw [if_pos hall]
    rw [replicate_zip g Xs, List.map_map]
    have hfun : ((fun p : Int × X =>
          (List.lookup p.1 [(g, ef (Xs.zip ys))]).map (fun s => ep s a p.2))
        ∘ (fun x : X => (g, x)))
        = fun x : X => some (ep (ef (Xs.zip ys)) a x) := by
      funext x
      simp [List.lookup]
    rw [hfun, seqOpt_map_some]
    rfl

/-- Witness for C1 at a concrete input: a two-row dataset with the single
synthetic group id 7, an estimator whose state is the number of rows it was
fitted on, and alpha 100. -/
theorem mondrian_single_group_equiv_witness :
    ∃ m, mondrianFit (fun rows : List (ℤ × ℤ) => rows.length)
          [(10 : ℤ), 20] [(1 : ℤ), 2]
          (List.replicate 2 (GroupLabel.intL 7)) = .ok m
      ∧ mondrianPredict (fun (s : ℕ) (a : ℤ) (x : ℤ) => x + a + (s : ℤ))
          m [(10 : ℤ), 20] (List.replicate 2 7) 100
          = .ok (classicFitPredict (fun rows : List (ℤ × ℤ) => rows.length)
              (fun (s : ℕ) (a : ℤ) (x : ℤ) => x + a + (s : ℤ))
              [(10 : ℤ), 20] [(1 : ℤ), 2] 100) :=
  mondrian_single_group_equiv (fun rows : List (ℤ × ℤ) => rows.length)
    (fun (s : ℕ) (a : ℤ) (x : ℤ) => x + a + (s : ℤ))
    [(10 : ℤ), 20] [(1 : ℤ), 2] 7 100 (by decide) (by decide)
